import Mathlib

/-!
Verification development for the klf-require tokenizer core.

The definitions below are a shallow embedding of the JavaScript sources:
`src/ast/AstBuilder.js`, `src/ast/AstGeneratorJS.js`,
`src/ast/generators/GeneratorBase.js`, `src/ast/generators/Whitespace.js`,
`src/loader/ExtensionLoader.js` and the generator files (Global, Number,
CommentBlock, literal-condition generators).  Source text is modelled as
`List Char`, JavaScript exceptions as an explicit error type, and the
mutable `AstBuilder` object as an explicit state record threaded through
the operations.  Token objects are shared mutable values in JS; they are
modelled by indices into the `allTokens` store.
-/

namespace Klf

/-- JavaScript runtime failures that the embedded code can raise.
`referenceError` models reading an undeclared identifier, `typeError`
models a property access on `undefined`, `jsError` models
`throw new Error(...)`, and `fuel` is a model artifact for bounded
recursion (never produced on the concrete runs used in the theorems). -/
inductive JsErr where
  | referenceError
  | typeError
  | jsError (msg : String)
  | fuel
deriving DecidableEq, Repr

/-- The `TokenType` enum from `src/index.js`, in declaration order.
`createEnum` assigns sequential numeric values starting at 0. -/
inductive TokenType where
  | Unknown
  | ArrowFunction
  | Assignment
  | BlockStatement
  | BlockStatementEnd
  | BlockStatementStart
  | CurlyBrace
  | Class
  | ClassBody
  | CommentBlock
  | CommentInline
  | Equality
  | Function
  | Global
  | Identifier
  | Member
  | Number
  | Parameter
  | ParameterList
  | ParameterListEnd
  | Paranthesis
  | RawText
  | ReservedWord
  | Semicolon
  | Whitespace
deriving DecidableEq, Repr

/-- Numeric value of a `TokenType` member (sequential, declaration order). -/
def TokenType.code : TokenType → Nat
  | .Unknown => 0
  | .ArrowFunction => 1
  | .Assignment => 2
  | .BlockStatement => 3
  | .BlockStatementEnd => 4
  | .BlockStatementStart => 5
  | .CurlyBrace => 6
  | .Class => 7
  | .ClassBody => 8
  | .CommentBlock => 9
  | .CommentInline => 10
  | .Equality => 11
  | .Function => 12
  | .Global => 13
  | .Identifier => 14
  | .Member => 15
  | .Number => 16
  | .Parameter => 17
  | .ParameterList => 18
  | .ParameterListEnd => 19
  | .Paranthesis => 20
  | .RawText => 21
  | .ReservedWord => 22
  | .Semicolon => 23
  | .Whitespace => 24

/-- Source position `{line, char, col}` (AstBuilder constructor). -/
structure SourcePosition where
  line : Nat
  char : Nat
  col : Nat
deriving DecidableEq, Repr

/-- A token object (`AstToken`).  JS field `end` is `endPos` here;
`none` on an optional field models an unset (`undefined`) JS field.
`children` holds indices into the builder's `allTokens` store. -/
structure Token where
  type : TokenType := .Unknown
  start : SourcePosition
  endPos : Option SourcePosition := none
  raw : Option (List Char) := none
  children : Option (List Nat) := none
  name : Option (List Char) := none
  format : Option String := none
  isBigInt : Bool := false
deriving DecidableEq, Repr

/-- A tokenizer context frame.  Every JS object field can be absent
(outer `none`) or present with a falsy value (inner `none`), matching
the spread-merge semantics of `pushContext`. -/
structure ContextFrame where
  scope : Option (Option String) := none
  thisClass : Option (Option Nat) := none
  thisFunction : Option (Option Nat) := none
  thisMember : Option (Option Nat) := none
  vars : Option (List (String × Nat)) := none
deriving DecidableEq, Repr

/-- Match condition of a recognizer (`GeneratorBase.calculateWeight`
dispatches on it).  The RegExp branch delegates to `RegExUtil` and is
not needed by the claims, so only the string and function kinds are
embedded. -/
inductive Condition where
  | str (s : List Char)
  | func
deriving DecidableEq, Repr

/-- The behavioural kind of a generator: which built-in recognizer class
its `test`/`getToken` come from.  `literal` covers `GeneratorBase` with a
string condition and a configured `tokenType` (`none` models a falsy
`this.tokenType`, which makes `getToken` throw `not implemented`). -/
inductive GenKind where
  | global
  | whitespace
  | commentBlock
  | number
  | literal (cond : List Char) (tokenType : Option TokenType)
deriving DecidableEq, Repr

/-- A registered recognizer/provider instance. -/
structure Generator where
  name : String
  id : Nat
  weight : Nat
  kind : GenKind
deriving DecidableEq, Repr

/-- The mutable `AstBuilder` state: source views, position, token store,
context stack, open-token stack and the per-run provider indices. -/
structure AstBuilder where
  source : List Char
  remainder : List Char
  position : SourcePosition := { line := 0, char := 0, col := 0 }
  allTokens : List Token := []
  contextStack : List ContextFrame := []
  context : Option ContextFrame := none
  openTokens : List Nat := []
  tokenProviders : List (String × Generator) := []
  tokenProvidersById : List (Nat × Generator) := []
  tokenProvidersSorted : List Generator := []
deriving DecidableEq, Repr

/-- Look a token up in the store (`this.allTokens[i]`). -/
def tokenAt (st : AstBuilder) (i : Nat) : Option Token :=
  st.allTokens.get? i

/-- Replace the token stored at index `i` (models mutating the shared
token object). -/
def setTokenAt (st : AstBuilder) (i : Nat) (t : Token) : AstBuilder :=
  { st with allTokens := st.allTokens.set i t }

/-- Type of the token at index `i`, if any. -/
def tokenTypeAt (st : AstBuilder) (i : Nat) : Option TokenType :=
  (tokenAt st i).map Token.type

/-- Loop body of `AstBuilder.countLines`: scan the string, resetting the
column to 0 after each newline and incrementing it otherwise. -/
def countLinesAux : List Char → Nat → Nat → Nat × Nat
  | [], lines, col => (lines, col)
  | c :: rest, lines, col =>
    if c = '\n' then countLinesAux rest (lines + 1) 0
    else countLinesAux rest lines (col + 1)

/-- `AstBuilder.countLines(str, col)`: returns `{lines, col}`. -/
def countLines (str : List Char) (col : Nat) : Nat × Nat :=
  countLinesAux str 0 col

/-- Number of newline characters in a string (specification-side count
used to state the position-advance property). -/
def newlineCount (l : List Char) : Nat :=
  (l.filter (fun c => c = '\n')).length

/-- Length of the trailing newline-free suffix: the number of characters
on the last line of the string (specification-side count). -/
def trailingRun (l : List Char) : Nat :=
  (l.reverse.takeWhile (fun c => ¬ (c = '\n'))).length

/-- `AstBuilder.startToken(partialToken)`: allocate a token at the
current position (cloned) with type defaulting to `Unknown`, append it
to `allTokens`, and return its index. -/
def startToken (st : AstBuilder) (init : Token) : AstBuilder × Nat :=
  let t : Token := { init with start := st.position }
  ({ st with allTokens := st.allTokens ++ [t] }, st.allTokens.length)

/-- Attachment step of `AstBuilder.updatePosition`: push the token onto
`openTokens` with an (existing or fresh) children array when left open,
otherwise append it to the children of the innermost open token.  Open
tokens always carry a children array (created in the `leaveOpen`
branch), so the parent's `children` is read with a `[]` default. -/
def attachToken (st : AstBuilder) (ti : Nat) (t : Token) (leaveOpen : Bool) : AstBuilder :=
  if leaveOpen then
    let st' := setTokenAt st ti { t with children := some (t.children.getD []) }
    { st' with openTokens := ti :: st'.openTokens }
  else
    match st.openTokens.head? with
    | some pi =>
      match tokenAt st pi with
      | some pt => setTokenAt st pi { pt with children := some (pt.children.getD [] ++ [ti]) }
      | none => st
    | none => st

/-- Stamp the token's `end` unless it is left open. -/
def stampEnd (st : AstBuilder) (ti : Nat) (leaveOpen : Bool) (endP : SourcePosition) :
    AstBuilder :=
  if leaveOpen then st
  else
    match tokenAt st ti with
    | some t2 => setTokenAt st ti { t2 with endPos := some endP }
    | none => st

/-- `AstBuilder.updatePosition(token, leaveOpen)`.  When the token's end
is unset: advance line/col via `countLines`, add the raw length to the
byte offset, attach the token (`attachToken`), stamp its end unless it
is left open (`stampEnd`), and slice the consumed prefix off
`remainder`.  When `end` is already set the call only logs and changes
nothing. -/
def updatePosition (st : AstBuilder) (ti : Nat) (leaveOpen : Bool) : AstBuilder :=
  match tokenAt st ti with
  | none => st
  | some t =>
    match t.endPos with
    | some _ => st
    | none =>
      let raw := t.raw.getD []
      let len := raw.length
      let lc := countLines raw st.position.col
      let endP : SourcePosition :=
        { char := st.position.char + len, col := lc.2, line := st.position.line + lc.1 }
      let st1 := { st with position := endP }
      let st2 := attachToken st1 ti t leaveOpen
      let st3 := stampEnd st2 ti leaveOpen endP
      { st3 with remainder := st3.remainder.drop len }

/-- `AstBuilder.endToken(token, leaveOpen)`: throws when `raw` is not a
string, otherwise runs `updatePosition` when the end is not yet set. -/
def endToken (st : AstBuilder) (ti : Nat) (leaveOpen : Bool) : Except JsErr AstBuilder :=
  match tokenAt st ti with
  | none => .error .typeError
  | some t =>
    match t.raw with
    | none => .error (.jsError "Cannot finish invalid token")
    | some _ =>
      match t.endPos with
      | none => .ok (updatePosition st ti leaveOpen)
      | some _ => .ok st

/-- JavaScript object-spread choice for one field: the later object's
binding wins when the key is present. -/
def jsOr {α : Type} (later earlier : Option α) : Option α :=
  match later with
  | some v => some v
  | none => earlier

/-- Spread-merge of two context frames, `{ ...a, ...b }`. -/
def mergeFrame (a b : ContextFrame) : ContextFrame :=
  { scope := jsOr b.scope a.scope
    thisClass := jsOr b.thisClass a.thisClass
    thisFunction := jsOr b.thisFunction a.thisFunction
    thisMember := jsOr b.thisMember a.thisMember
    vars := jsOr b.vars a.vars }

/-- `AstBuilder.pushContext(newContext)`: unshift the spread-merge of
the current top frame (an empty object when the stack is empty) with
the new data, and make it the current context. -/
def pushContext (st : AstBuilder) (nc : ContextFrame) : AstBuilder :=
  let nf := mergeFrame (st.contextStack.headD {}) nc
  { st with contextStack := nf :: st.contextStack, context := some nf }

/-- Index of the first element satisfying the predicate
(`Array.prototype.findIndex`, with `none` for `-1`). -/
def findFirstIdx {α : Type} (p : α → Bool) : List α → Option Nat
  | [] => none
  | x :: t => if p x then some 0 else (findFirstIdx p t).map (· + 1)

/-- `AstBuilder.removeProvider(provider)`: when the provider's id is a
key of `tokenProvidersById`, delete its name and id bindings, splice it
out of the sorted index (located by identity, modelled as structural
equality), and return true; otherwise return false and change
nothing. -/
def removeProvider (st : AstBuilder) (p : Generator) : AstBuilder × Bool :=
  if (st.tokenProvidersById.lookup p.id).isSome then
    let idx := findFirstIdx (fun q => q = p) st.tokenProvidersSorted
    let sorted' :=
      match idx with
      | some i => st.tokenProvidersSorted.eraseIdx i
      | none => st.tokenProvidersSorted
    ({ st with
        tokenProviders := st.tokenProviders.filter (fun e => ¬ (e.1 = p.name))
        tokenProvidersById := st.tokenProvidersById.filter (fun e => ¬ (e.1 = p.id))
        tokenProvidersSorted := sorted' }, true)
  else (st, false)

/-- `AstBuilder.getProviderById(tokenType)`: the registered provider for
a token-type id, `none` for the JS `false` returned when absent. -/
def getProviderById (st : AstBuilder) (id : Nat) : Option Generator :=
  st.tokenProvidersById.lookup id

/-- `AstBuilder.isEOF()`: the byte offset equals the source length. -/
def isEOF (st : AstBuilder) : Bool :=
  st.position.char = st.source.length

/-- Truthiness of `context.scope`: present and a non-empty string. -/
def scopeTruthy (f : ContextFrame) : Bool :=
  match f.scope with
  | some (some s) => s ≠ ""
  | _ => false

/-- JavaScript `\s` character class, restricted to the ASCII whitespace
characters that can occur in the modelled sources. -/
def isSpaceChar (c : Char) : Bool :=
  c = ' ' ∨ c = '\t' ∨ c = '\n' ∨ c = '\r' ∨ c = '\x0b' ∨ c = '\x0c'

/-- Match of `/^(?<whitespace>[\s]+)/` (Whitespace.js): the maximal
non-empty leading whitespace run. -/
def wsMatch (l : List Char) : Option (List Char) :=
  let run := l.takeWhile isSpaceChar
  if run.isEmpty then none else some run

/-- Index of the first occurrence of `pat` in `l`, if any. -/
def firstSubIdx (pat : List Char) : List Char → Option Nat
  | [] => if pat.isEmpty then some 0 else none
  | c :: rest =>
    if pat.isPrefixOf (c :: rest) then some 0
    else (firstSubIdx pat rest).map (· + 1)

/-- JavaScript `String.prototype.indexOf`: first index or `-1`. -/
def jsIndexOfSub (l pat : List Char) : Int :=
  match firstSubIdx pat l with
  | some i => (i : Int)
  | none => -1

/-- JavaScript `str.slice(0, n)` with a possibly negative end index. -/
def jsSliceTo (l : List Char) (n : Int) : List Char :=
  if n < 0 then l.take (l.length - n.natAbs) else l.take n.toNat

/-- Decimal digit characters. -/
def isDigitC (c : Char) : Bool := '0' ≤ c ∧ c ≤ '9'

/-- Non-zero decimal digit characters, the class `[1-9]`. -/
def isNonZeroDigit (c : Char) : Bool := '1' ≤ c ∧ c ≤ '9'

/-- Hexadecimal digit characters, the class `[a-fA-F0-9]`. -/
def isHexDigit (c : Char) : Bool :=
  isDigitC c ∨ ('a' ≤ c ∧ c ≤ 'f') ∨ ('A' ≤ c ∧ c ≤ 'F')

/-- Binary digit characters, the class `[01]`. -/
def isBinDigit (c : Char) : Bool := c = '0' ∨ c = '1'

/-- Octal digit characters, the class `[0-7]`. -/
def isOctDigit (c : Char) : Bool := '0' ≤ c ∧ c ≤ '7'

/-- Consume an optional single character `c`: `(consumed, rest)`. -/
def optChar (c : Char) (l : List Char) : List Char × List Char :=
  match l with
  | x :: t => if x = c then ([c], t) else ([], l)
  | [] => ([], l)

/-- One iteration of a repeated group `_?D+` for a digit class `p`:
an optional underscore followed by a non-empty maximal digit run.
Fails (so the repetition stops) when no digit follows. -/
def digitGroup (p : Char → Bool) (l : List Char) : Option (List Char × List Char) :=
  let u := optChar '_' l
  let ds := u.2.takeWhile p
  if ds.isEmpty then none else some (u.1 ++ ds, u.2.drop ds.length)

/-- One iteration of the decimal group `_?[0-9]+\.?`. -/
def decGroup (l : List Char) : Option (List Char × List Char) :=
  match digitGroup isDigitC l with
  | none => none
  | some (g, rest) =>
    let d := optChar '.' rest
    some (g ++ d.1, d.2)

/-- Greedy repetition of a group matcher; each successful step consumes
at least one character, so the input length bounds the iteration. -/
def repGroup (step : List Char → Option (List Char × List Char)) :
    Nat → List Char → List Char × List Char
  | 0, l => ([], l)
  | n + 1, l =>
    match step l with
    | some (c, rest) =>
      let r := repGroup step n rest
      (c ++ r.1, r.2)
    | none => ([], l)

/-- Anchored match of the decimal tester
`/^(?<decimal>[1-9](?:_?[0-9]+\.?)+(?:_?[0-9]+\.?)*n?)/`: a non-zero
digit, at least one `_?[0-9]+\.?` group (the trailing starred copy of
the same group is absorbed by the greedy repetition), and an optional
`n` suffix. -/
def decimalMatch (l : List Char) : Option (List Char) :=
  match l with
  | c :: rest =>
    if isNonZeroDigit c then
      match decGroup rest with
      | none => none
      | some (g1, r1) =>
        let gs := repGroup decGroup r1.length r1
        let nf := optChar 'n' gs.2
        some (c :: (g1 ++ gs.1 ++ nf.1))
    else none
  | [] => none

/-- Anchored match of the hexadecimal tester
`/^(?<hex>0[xX][a-fA-F0-9](?:_?[a-fA-F0-9]+)+n?)/`. -/
def hexMatch (l : List Char) : Option (List Char) :=
  match l with
  | '0' :: x :: c :: rest =>
    if (x = 'x' ∨ x = 'X') ∧ isHexDigit c then
      match digitGroup isHexDigit rest with
      | none => none
      | some (g1, r1) =>
        let gs := repGroup (digitGroup isHexDigit) r1.length r1
        let nf := optChar 'n' gs.2
        some ('0' :: x :: c :: (g1 ++ gs.1 ++ nf.1))
    else none
  | _ => none

/-- Anchored match of the exponential tester `/^(?<exp>[0-9]+[eE]-[0-9+]n?)/`:
digits, `e` or `E`, a literal `-`, one character of the class `[0-9+]`,
and an optional `n`. -/
def expMatch (l : List Char) : Option (List Char) :=
  let ds := l.takeWhile isDigitC
  if ds.isEmpty then none
  else
    match l.drop ds.length with
    | e :: '-' :: c :: rest =>
      if (e = 'e' ∨ e = 'E') ∧ (isDigitC c ∨ c = '+') then
        some (ds ++ [e, '-', c] ++ (optChar 'n' rest).1)
      else none
    | _ => none

/-- Anchored match of the binary tester `/^(?<binary>0[bB][01]?(_?[01]+)*n?)/`. -/
def binaryMatch (l : List Char) : Option (List Char) :=
  match l with
  | '0' :: b :: rest =>
    if b = 'b' ∨ b = 'B' then
      let d1 :=
        match rest with
        | c :: t => if isBinDigit c then ([c], t) else (([] : List Char), rest)
        | [] => ([], rest)
      let gs := repGroup (digitGroup isBinDigit) d1.2.length d1.2
      let nf := optChar 'n' gs.2
      some ('0' :: b :: (d1.1 ++ gs.1 ++ nf.1))
    else none
  | _ => none

/-- Anchored match of the octal tester `/^(?<octal>0[oO][0-7]+n*)/`. -/
def octalMatch (l : List Char) : Option (List Char) :=
  match l with
  | '0' :: o :: rest =>
    if o = 'o' ∨ o = 'O' then
      let ds := rest.takeWhile isOctDigit
      if ds.isEmpty then none
      else
        let r1 := rest.drop ds.length
        some ('0' :: o :: (ds ++ r1.takeWhile (fun c => c = 'n')))
    else none
  | _ => none

/-- Which named capture group a tester defines. -/
inductive NumTag where
  | decimal
  | hex
  | exp
  | binary
  | octal
deriving DecidableEq, Repr

/-- The `this.testers` array of NumberGenerator, in source order. -/
def numTesters : List (NumTag × (List Char → Option (List Char))) :=
  [(NumTag.decimal, decimalMatch), (NumTag.hex, hexMatch), (NumTag.exp, expMatch),
   (NumTag.binary, binaryMatch), (NumTag.octal, octalMatch)]

/-- Loop body of `NumberGenerator.test`: for each tester in order the
code runs `exec` and **returns false as soon as a tester fails to
match** (`if (match === null) return false;`).  On a successful match it
dispatches on the defined group: `decimal`, `hex` and `octal` return a
result; the `exp` branch evaluates `binary.indexOf('__')` where `binary`
is `undefined` (a TypeError); no branch tests `groups.binary`, so a
binary match falls through the if-chain and the loop continues. -/
def numberTestGo (rem : List Char) :
    List (NumTag × (List Char → Option (List Char))) →
    Except JsErr (Option (List Char × String))
  | [] => .ok none
  | (tag, ex) :: rest =>
    match ex rem with
    | none => .ok none
    | some s =>
      match tag with
      | .decimal => .ok (some (s, "decimal"))
      | .hex => .ok (some (s, "hexidecimal"))
      | .exp => .error .typeError
      | .binary => numberTestGo rem rest
      | .octal => .ok (some (s, "octal"))

/-- `NumberGenerator.test(ast, context)` applied to the remaining text. -/
def numberTest (rem : List Char) : Except JsErr (Option (List Char × String)) :=
  numberTestGo rem numTesters

/-- A truthy result of a recognizer's `test`: boolean `true`, a matched
literal string, a named-capture payload, or NumberGenerator's
structured `{raw, format}` object. -/
inductive TRes where
  | boolTrue
  | lit (s : List Char)
  | groups (raw : List Char)
  | numData (raw : List Char) (format : String)
deriving DecidableEq, Repr

/-- Result object of a recognizer's `getToken`: `nextToken` defaults to
`[]` when absent or not an array, `leaveOpen` to `false`; a bare
`AstToken` return is `token` with the defaults. -/
structure GetRes where
  token : Option Nat := none
  next : List Nat := []
  leaveOpen : Bool := false
deriving DecidableEq, Repr

/-- Dispatch of `generator.test(this, this.context)` for the embedded
generator kinds.  GlobalGenerator reads `context.scope` (a TypeError
when the context is still `false`); WhitespaceGenerator and
NumberGenerator run their patterns against `remainder`; a string
condition compares the same-length slice of `remainder`
(`GeneratorBase.test`, non-empty conditions only). -/
def genTest (g : Generator) (st : AstBuilder) : Except JsErr (Option TRes) :=
  match g.kind with
  | .global =>
    match st.context with
    | none => .error .typeError
    | some ctx => .ok (if scopeTruthy ctx then none else some .boolTrue)
  | .whitespace =>
    match wsMatch st.remainder with
    | some ws => .ok (some (.groups ws))
    | none => .ok none
  | .commentBlock =>
    if st.remainder.take 2 = ['/', '*'] then .ok (some (.lit ['/', '*'])) else .ok none
  | .number =>
    match numberTest st.remainder with
    | .error e => .error e
    | .ok none => .ok none
    | .ok (some (raw, fmt)) => .ok (some (.numData raw fmt))
  | .literal s _ =>
    if s.length > 0 ∧ st.remainder.take s.length = s then .ok (some (.lit s))
    else .ok none

/-- Dispatch of `generator.getToken(this, this.context, testResult)` for
the embedded generator kinds, mirroring each class's implementation:
GlobalGenerator starts a zero-width `Global` token, pushes a global
scope, removes itself and leaves the token open; WhitespaceGenerator
and NumberGenerator wrap their match; CommentBlockGenerator slices
`remainder` up to `indexOf('*/') + 2`; a literal generator with a
truthy `tokenType` starts a token from the matched text
(`GeneratorBase.getToken`), otherwise it throws `not implemented`. -/
def genGetToken (g : Generator) (st : AstBuilder) (tr : TRes) :
    Except JsErr (AstBuilder × GetRes) :=
  match g.kind with
  | .global =>
    let r := startToken st { type := .Global, raw := some [], start := st.position }
    let st2 := pushContext r.1 { scope := some (some "global") }
    let st3 := (removeProvider st2 g).1
    .ok (st3, { token := some r.2, leaveOpen := true })
  | .whitespace =>
    match tr with
    | .groups ws =>
      let r := startToken st { type := .Whitespace, raw := some ws, start := st.position }
      .ok (r.1, { token := some r.2 })
    | _ =>
      let r := startToken st { type := .Whitespace, start := st.position }
      .ok (r.1, { token := some r.2 })
  | .commentBlock =>
    let e := jsIndexOfSub st.remainder ['*', '/']
    let raw := jsSliceTo st.remainder (e + 2)
    let r := startToken st { type := .CommentBlock, raw := some raw, start := st.position }
    .ok (r.1, { token := some r.2 })
  | .number =>
    match tr with
    | .numData raw fmt =>
      let r := startToken st
        { type := .Number, raw := some raw, format := some fmt,
          isBigInt := raw.getLast? = some 'n', start := st.position }
      .ok (r.1, { token := some r.2 })
    | _ => .error .typeError
  | .literal _ tt? =>
    match tt? with
    | some tt =>
      match tr with
      | .lit raw =>
        let r := startToken st { type := tt, raw := some raw, start := st.position }
        .ok (r.1, { token := some r.2 })
      | _ => .error .typeError
    | none => .error (.jsError "not implemented")

/-- `AstBuilder.preparePipeline(expected)`: the by-id lookups of the
requested types in caller order when `expected` is non-empty (an
unregistered id yields an `undefined` entry), otherwise the full sorted
provider list. -/
def preparePipeline (st : AstBuilder) (expected : List Nat) : List (Option Generator) :=
  if expected.length ≠ 0 then expected.map (fun id => st.tokenProvidersById.lookup id)
  else st.tokenProvidersSorted.map some

/-- `AstBuilderJS.preparePipeline(expected)`: the base pipeline, then
`pipeline.findIndex(p => whitespaceProvider)` — whose predicate ignores
`p` and returns the whitespace provider itself — so the index is `0`
whenever the provider exists and the pipeline is non-empty, and `-1`
only for an empty pipeline or a missing provider, in which case the
(possibly `false`) provider is pushed. -/
def preparePipelineJS (st : AstBuilder) (expected : List Nat) : List (Option Generator) :=
  let pipeline := preparePipeline st expected
  let ws := getProviderById st TokenType.Whitespace.code
  let idx : Int := if ws.isSome ∧ ¬ pipeline.isEmpty then 0 else -1
  if idx = -1 then pipeline ++ [ws] else pipeline

/-- Outcome of one `nextToken` call: an emitted `{token, nextToken}`
pair, the end-of-stream sentinel (`undefined`), or the reported failure
value (`false`). -/
inductive NextTokenResult where
  | token (ti : Nat) (next : List Nat)
  | eof
  | failed
deriving DecidableEq, Repr

/-- The no-match tail of `AstBuilder.nextToken`.  Both branches
interpolate `loader.name` into their log message, but `loader` is an
undeclared identifier inside `AstBuilder.js` (the field in scope is
`this.loader`), so evaluating the template literal raises a
ReferenceError before anything is returned; with an empty `allTokens`
the failure branch already fails reading `lastToken.end`.  The position
and snippet computed before the throw are kept to document the intended
diagnostic. -/
def noMatchTail (st : AstBuilder) : Except JsErr (AstBuilder × NextTokenResult) :=
  if isEOF st then
    .error .referenceError
  else
    match st.allTokens.getLast? with
    | none => .error .typeError
    | some last =>
      let pos := last.endPos.getD last.start
      let _snippet := (st.source.drop pos.char).take 5
      .error .referenceError

/-- Outcome of one pass over the pipeline: a final result, or a
transparent retry after consuming whitespace. -/
inductive LoopOut where
  | done (r : Except JsErr (AstBuilder × NextTokenResult))
  | retry (st : AstBuilder)

/-- The `for (const generator of pipeline)` loop of
`AstBuilder.nextToken`: an `undefined` pipeline entry fails when its
`test` is invoked; the first truthy test runs `getToken`, finalizes the
token with `endToken`, and either retries (Whitespace) or returns the
`{token, nextToken}` pair; a falsy test moves on; an exhausted pipeline
falls through to the no-match tail. -/
def nextTokenLoop (st : AstBuilder) : List (Option Generator) → LoopOut
  | [] => .done (noMatchTail st)
  | g? :: rest =>
    match g? with
    | none => .done (.error .typeError)
    | some g =>
      match genTest g st with
      | .error e => .done (.error e)
      | .ok none => nextTokenLoop st rest
      | .ok (some tr) =>
        match genGetToken g st tr with
        | .error e => .done (.error e)
        | .ok (st1, res) =>
          match res.token with
          | none => .done (.error .typeError)
          | some ti =>
            match endToken st1 ti res.leaveOpen with
            | .error e => .done (.error e)
            | .ok st2 =>
              if tokenTypeAt st2 ti = some TokenType.Whitespace then .retry st2
              else .done (.ok (st2, .token ti res.next))

/-- `AstBuilder.nextToken(...expect)` (with `AstBuilderJS`'s pipeline
override when `isJS` is set): build the pipeline, throw on an empty
one, then run the recognizer loop; a whitespace token restarts the call
with the same expected types (bounded by `fuel`, a model artifact). -/
def nextTokenGo : Nat → Bool → AstBuilder → List Nat →
    Except JsErr (AstBuilder × NextTokenResult)
  | 0, _, _, _ => .error .fuel
  | fuel + 1, isJS, st, expect =>
    let pipeline := if isJS then preparePipelineJS st expect else preparePipeline st expect
    if pipeline.isEmpty then
      .error (.jsError "empty pipeline")
    else
      match nextTokenLoop st pipeline with
      | .done r => r
      | .retry st2 => nextTokenGo fuel isJS st2 expect

/-- `GeneratorBase.calculateWeight`: a string condition scores
`100 + length`; a function condition scores the fixed minimum `1`
(the RegExp branch delegates to `RegExUtil` and is outside the claims). -/
def calculateWeight : Condition → Nat
  | .str s => 100 + s.length
  | .func => 1

/-- Sign-only model of `String.prototype.localeCompare` over the
provider names: negative, zero or positive according to the string
order. -/
def localeCompare (a b : String) : Int :=
  if a < b then -1 else if b < a then 1 else 0

/-- The comparator passed to `tokenProvidersSorted.sort` in
`ExtensionLoader.initialize`: weight descending, ties by name
ascending. -/
def providerCmp (a b : Generator) : Int :=
  if a.weight > b.weight then -1
  else if a.weight < b.weight then 1
  else localeCompare a.name b.name

/-- The non-strict order induced by the comparator (`compare ≤ 0`). -/
def providerLE (a b : Generator) : Prop :=
  providerCmp a b ≤ 0

/-- The strict order induced by the comparator (`compare < 0`). -/
def providerLT (a b : Generator) : Prop :=
  providerCmp a b < 0

instance : DecidableRel providerLE := fun a b => by
  unfold providerLE
  infer_instance

instance : DecidableRel providerLT := fun a b => by
  unfold providerLT
  infer_instance

/-- Result of `Array.prototype.sort` with the registration comparator:
a permutation of the input ordered by the comparator's non-strict
order, modelled by insertion sort. -/
def sortProviders (l : List Generator) : List Generator :=
  List.insertionSort providerLE l

/-- The weight-then-name order stated by the specification: weight
descending, ties broken by name ascending. -/
def weightNameOrder (a b : Generator) : Prop :=
  b.weight < a.weight ∨ (a.weight = b.weight ∧ a.name ≤ b.name)

/-- The strict weight-then-name order: weight descending, ties broken
by strictly smaller name. -/
def weightNameLT (a b : Generator) : Prop :=
  b.weight < a.weight ∨ (a.weight = b.weight ∧ a.name < b.name)

/-- Builder used to exercise `updatePosition` on a raw text without
newlines, starting from a non-zero column. -/
def updNoNlState : AstBuilder :=
  { source := "xxxxxa".toList, remainder := "a".toList,
    position := { line := 0, char := 5, col := 5 },
    allTokens := [{ type := .Identifier, start := { line := 0, char := 5, col := 5 },
                    raw := some ['a'] }] }

/-- Builder used to exercise `updatePosition` on a raw text containing a
newline, starting from a non-zero column. -/
def updNlState : AstBuilder :=
  { source := "a\nbc".toList, remainder := "a\nbc".toList,
    position := { line := 0, char := 0, col := 5 },
    allTokens := [{ type := .RawText, start := { line := 0, char := 0, col := 5 },
                    raw := some ['a', '\n', 'b', 'c'] }] }

/-- The Semicolon recognizer (literal condition `";"`). -/
def semiGen : Generator :=
  { name := "Semicolon", id := 23, weight := 101, kind := .literal [';'] (some .Semicolon) }

/-- The Whitespace recognizer (explicit weight `1_000_000`). -/
def wsGen : Generator :=
  { name := "Whitespace", id := 24, weight := 1000000, kind := .whitespace }

/-- The Global recognizer (explicit weight `Number.MAX_SAFE_INTEGER`). -/
def globalGen : Generator :=
  { name := "Global", id := 13, weight := 9007199254740991, kind := .global }

/-- A stand-in Identifier recognizer entry for pipeline experiments. -/
def identGen : Generator :=
  { name := "Identifier", id := 14, weight := 300, kind := .literal ['x'] (some .Identifier) }

/-- The CommentBlock recognizer (literal condition `"/*"`). -/
def cbGen : Generator :=
  { name := "CommentBlock", id := 9, weight := 102, kind := .commentBlock }

/-- A builder with only the Semicolon recognizer registered. -/
def remState : AstBuilder :=
  { source := [], remainder := [],
    tokenProviders := [("Semicolon", semiGen)],
    tokenProvidersById := [(23, semiGen)],
    tokenProvidersSorted := [semiGen] }

/-- The initial frame pushed by the `AstBuilderJS` constructor:
`{scope: false, thisClass: false, thisFunction: false, thisMember:
false, variables: {}}`. -/
def jsInitFrame : ContextFrame :=
  { scope := some none, thisClass := some none, thisFunction := some none,
    thisMember := some none, vars := some [] }

/-- A builder whose context stack holds the initial JS frame. -/
def pushState : AstBuilder :=
  { source := [], remainder := [], contextStack := [jsInitFrame],
    context := some jsInitFrame }

/-- The frame patch pushed by the Class recognizer:
`{scope: 'class', thisClass: token}`. -/
def classPatch : ContextFrame :=
  { scope := some (some "class"), thisClass := some (some 5) }

/-- A builder mid-run on the source `" ;"`, with an open root token
(index 0) awaiting children and the Whitespace and Semicolon
recognizers registered. -/
def wsRunState : AstBuilder :=
  { source := " ;".toList, remainder := " ;".toList,
    position := { line := 0, char := 0, col := 0 },
    allTokens := [{ type := .Global, start := { line := 0, char := 0, col := 0 },
                    raw := some [], children := some [] }],
    openTokens := [0],
    tokenProviders := [("Whitespace", wsGen), ("Semicolon", semiGen)],
    tokenProvidersById := [(24, wsGen), (23, semiGen)],
    tokenProvidersSorted := [wsGen, semiGen] }

/-- Final builder state of the `nextToken` call on `wsRunState`. -/
def wsRunResult : AstBuilder :=
  match nextTokenGo 3 false wsRunState [] with
  | .ok (st, _) => st
  | .error _ => wsRunState

/-- A fresh JS builder on the source `"x"`: initial context frame
pushed, only the Global recognizer registered. -/
def globalRunState : AstBuilder :=
  { source := "x".toList, remainder := "x".toList,
    position := { line := 0, char := 0, col := 0 },
    contextStack := [jsInitFrame], context := some jsInitFrame,
    tokenProviders := [("Global", globalGen)],
    tokenProvidersById := [(13, globalGen)],
    tokenProvidersSorted := [globalGen] }

/-- Final builder state of the `nextToken` call on `globalRunState`. -/
def globalRunResult : AstBuilder :=
  match nextTokenGo 2 false globalRunState [] with
  | .ok (st, _) => st
  | .error _ => globalRunState

/-- A builder mid-run on the source `";@"`: the semicolon was consumed,
`"@"` remains, and only the Semicolon recognizer (which cannot match
`"@"`) is registered. -/
def noMatchState : AstBuilder :=
  { source := ";@".toList, remainder := "@".toList,
    position := { line := 0, char := 1, col := 1 },
    allTokens := [{ type := .Semicolon, start := { line := 0, char := 0, col := 0 },
                    endPos := some { line := 0, char := 1, col := 1 }, raw := some [';'] }],
    tokenProviders := [("Semicolon", semiGen)],
    tokenProvidersById := [(23, semiGen)],
    tokenProvidersSorted := [semiGen] }

/-- A builder at end of input on the source `";"` after consuming the
semicolon. -/
def noMatchEofState : AstBuilder :=
  { noMatchState with source := ";".toList, remainder := [] }

/-- A builder at the start of the unterminated block comment
`"/* never closes"`, with the CommentBlock recognizer registered. -/
def commentState : AstBuilder :=
  { source := "/* never closes".toList, remainder := "/* never closes".toList,
    position := { line := 0, char := 0, col := 0 },
    tokenProviders := [("CommentBlock", cbGen)],
    tokenProvidersById := [(9, cbGen)],
    tokenProvidersSorted := [cbGen] }

/-- Final builder state of the `nextToken` call on `commentState`. -/
def commentResult : AstBuilder :=
  match nextTokenGo 2 false commentState [] with
  | .ok (st, _) => st
  | .error _ => commentState

/-- A builder with the Identifier and Whitespace recognizers registered
(the weight-sorted index lists Whitespace first). -/
def pipeState : AstBuilder :=
  { source := [], remainder := [],
    tokenProviders := [("Identifier", identGen), ("Whitespace", wsGen)],
    tokenProvidersById := [(14, identGen), (24, wsGen)],
    tokenProvidersSorted := [wsGen, identGen] }

/-- A sample registration list with pairwise-distinct names. -/
def weightDemoList : List Generator :=
  [semiGen, cbGen, identGen, wsGen, globalGen]

lemma setTokenAt_position (st : AstBuilder) (i : Nat) (t : Token) :
    (setTokenAt st i t).position = st.position := rfl

lemma setTokenAt_remainder (st : AstBuilder) (i : Nat) (t : Token) :
    (setTokenAt st i t).remainder = st.remainder := rfl

lemma countLinesAux_fst (l : List Char) :
    ∀ lines col, (countLinesAux l lines col).1 = lines + newlineCount l := by
  induction l with
  | nil => intro lines col; simp [countLinesAux, newlineCount]
  | cons c t ih =>
    intro lines col
    by_cases hc : c = '\n' <;>
      (simp [countLinesAux, newlineCount, hc, ih, List.filter]; all_goals omega)

lemma takeWhile_append_of_all {p : Char → Bool} {l1 : List Char} (l2 : List Char)
    (h : ∀ x ∈ l1, p x) :
    (l1 ++ l2).takeWhile p = l1 ++ l2.takeWhile p := by
  induction l1 with
  | nil => simp
  | cons c t ih =>
    have hc : p c := h c (by simp)
    simp only [List.cons_append, List.takeWhile_cons, hc, if_true]
    rw [ih (fun x hx => h x (by simp [hx]))]

lemma takeWhile_append_of_stop {p : Char → Bool} {l1 : List Char} (l2 : List Char)
    (h : ¬ ∀ x ∈ l1, p x) :
    (l1 ++ l2).takeWhile p = l1.takeWhile p := by
  induction l1 with
  | nil => exact absurd (by simp) h
  | cons c t ih =>
    by_cases hc : p c
    · have ht : ¬ ∀ x ∈ t, p x := by
        intro hall
        exact h (by intro x hx; rcases List.mem_cons.mp hx with rfl | hx
                    · exact hc
                    · exact hall x hx)
      simp only [List.cons_append, List.takeWhile_cons, hc, if_true]
      rw [ih ht]
    · simp [List.takeWhile_cons, hc]

lemma newlineCount_eq_zero_iff (l : List Char) :
    newlineCount l = 0 ↔ ∀ c ∈ l, ¬ (c = '\n') := by
  unfold newlineCount
  rw [List.length_eq_zero, List.filter_eq_nil_iff]
  simp

lemma trailingRun_cons_of_pos {t : List Char} (c : Char) (h : 0 < newlineCount t) :
    trailingRun (c :: t) = trailingRun t := by
  unfold trailingRun
  have hstop : ¬ ∀ x ∈ t.reverse, (fun x => ¬ (x = '\n') : Char → Bool) x := by
    intro hall
    have : newlineCount t = 0 := by
      rw [newlineCount_eq_zero_iff]
      intro x hx
      have := hall x (List.mem_reverse.mpr hx)
      simpa using this
    omega
  have : (c :: t).reverse = t.reverse ++ [c] := by simp
  rw [this, takeWhile_append_of_stop [c] hstop]

lemma trailingRun_cons_of_zero {t : List Char} (c : Char) (h : newlineCount t = 0) :
    trailingRun (c :: t) = t.length + (if c = '\n' then 0 else 1) := by
  unfold trailingRun
  have hall : ∀ x ∈ t.reverse, (fun x => ¬ (x = '\n') : Char → Bool) x := by
    intro x hx
    have := (newlineCount_eq_zero_iff t).mp h x (List.mem_reverse.mp hx)
    simpa using this
  have : (c :: t).reverse = t.reverse ++ [c] := by simp
  rw [this, takeWhile_append_of_all [c] hall]
  by_cases hc : c = '\n' <;> simp [List.takeWhile, hc]

lemma countLinesAux_snd (l : List Char) :
    ∀ lines col, (countLinesAux l lines col).2 =
      if newlineCount l = 0 then col + l.length else trailingRun l := by
  induction l with
  | nil => intro lines col; simp [countLinesAux, newlineCount]
  | cons c t ih =>
    intro lines col
    by_cases hc : c = '\n'
    · subst hc
      have hcc : newlineCount ('\n' :: t) = newlineCount t + 1 := by
        simp [newlineCount, List.filter]
      rw [show countLinesAux ('\n' :: t) lines col = countLinesAux t (lines + 1) 0 from by
        simp [countLinesAux]]
      rw [ih]
      by_cases ht : newlineCount t = 0
      · rw [if_pos ht, if_neg (by omega), trailingRun_cons_of_zero '\n' ht]
        simp
      · rw [if_neg ht, if_neg (by omega), trailingRun_cons_of_pos '\n' (by omega)]
    · have hcc : newlineCount (c :: t) = newlineCount t := by
        simp [newlineCount, List.filter, hc]
      rw [show countLinesAux (c :: t) lines col = countLinesAux t lines (col + 1) from by
        simp [countLinesAux, hc]]
      rw [ih]
      by_cases ht : newlineCount t = 0
      · rw [if_pos ht, if_pos (by omega)]
        simp
        omega
      · rw [if_neg ht, if_neg (by omega), trailingRun_cons_of_pos c (by omega)]

lemma updatePosition_effect (st : AstBuilder) (ti : Nat) (t : Token) (raw : List Char)
    (lo : Bool) (hT : tokenAt st ti = some t) (hEnd : t.endPos = none)
    (hRaw : t.raw = some raw) :
    (updatePosition st ti lo).position =
      { char := st.position.char + raw.length,
        col := (countLines raw st.position.col).2,
        line := st.position.line + (countLines raw st.position.col).1 }
    ∧ (updatePosition st ti lo).remainder = st.remainder.drop raw.length := by
  have hattachP : ∀ (st' : AstBuilder) lo', (attachToken st' ti t lo').position = st'.position := by
    intro st' lo'
    unfold attachToken
    split
    · simp [setTokenAt]
    · split
      · split <;> simp [setTokenAt]
      · rfl
  have hattachR : ∀ (st' : AstBuilder) lo', (attachToken st' ti t lo').remainder = st'.remainder := by
    intro st' lo'
    unfold attachToken
    split
    · simp [setTokenAt]
    · split
      · split <;> simp [setTokenAt]
      · rfl
  have hstampP : ∀ (st' : AstBuilder) lo' e, (stampEnd st' ti lo' e).position = st'.position := by
    intro st' lo' e
    unfold stampEnd
    split
    · rfl
    · split <;> simp [setTokenAt]
  have hstampR : ∀ (st' : AstBuilder) lo' e, (stampEnd st' ti lo' e).remainder = st'.remainder := by
    intro st' lo' e
    unfold stampEnd
    split
    · rfl
    · split <;> simp [setTokenAt]
  unfold updatePosition
  simp only [hT, hEnd, hRaw, Option.getD_some]
  constructor
  · simp [hstampP, hattachP]
  · simp [hstampR, hattachR]

/-- Claim C2, counterexample.  Advancing by the raw text `"a"` (zero
embedded newlines, one trailing non-newline character, so `m = 1`) from
column 5 leaves the column at 6, not at `m`: the code adds the trailing
run to the current column instead of resetting it when the raw text
contains no newline. -/
theorem claim2_counterexample :
    (updatePosition updNoNlState 0 false).position.col = 6
    ∧ trailingRun ['a'] = 1
    ∧ (updatePosition updNoNlState 0 false).position.col ≠ trailingRun ['a'] := by
  refine ⟨rfl, rfl, ?_⟩
  decide

/-- Claim C2, amended.  Advancing the position by a token's raw text
containing `k` embedded newlines and `m` trailing non-newline characters
on its last line adds `k` to the line, adds the raw length to the byte
offset, and slices the consumed prefix off the remaining-text view; the
column becomes `m` when `k ≥ 1`, and grows by the raw length (namely by
`m`) when `k = 0`. -/
theorem claim2_position_advance (st : AstBuilder) (ti : Nat) (t : Token) (raw : List Char)
    (lo : Bool) (hT : tokenAt st ti = some t) (hEnd : t.endPos = none)
    (hRaw : t.raw = some raw) :
    (updatePosition st ti lo).position.line = st.position.line + newlineCount raw
    ∧ (updatePosition st ti lo).position.char = st.position.char + raw.length
    ∧ (updatePosition st ti lo).remainder = st.remainder.drop raw.length
    ∧ (0 < newlineCount raw → (updatePosition st ti lo).position.col = trailingRun raw)
    ∧ (newlineCount raw = 0 → (updatePosition st ti lo).position.col = st.position.col + raw.length) := by
  obtain ⟨hp, hr⟩ := updatePosition_effect st ti t raw lo hT hEnd hRaw
  refine ⟨?_, ?_, hr, ?_, ?_⟩
  · rw [hp]
    simp [countLines, countLinesAux_fst]
  · rw [hp]
  · intro hk
    rw [hp]
    simp only [countLines, countLinesAux_snd]
    rw [if_neg (by omega)]
  · intro hk
    rw [hp]
    simp only [countLines, countLinesAux_snd]
    rw [if_pos hk]

/-- Claim C2, witness for the amended theorem: advancing over
`"a\nbc"` (one newline, two trailing characters) from column 5 yields
line 1, column 2, byte offset 4, and an emptied remaining-text view. -/
theorem claim2_witness :
    (updatePosition updNlState 0 false).position.line = updNlState.position.line + newlineCount ['a', '\n', 'b', 'c']
    ∧ (updatePosition updNlState 0 false).position.char = updNlState.position.char + (['a', '\n', 'b', 'c'] : List Char).length
    ∧ (updatePosition updNlState 0 false).remainder = updNlState.remainder.drop (['a', '\n', 'b', 'c'] : List Char).length
    ∧ (0 < newlineCount ['a', '\n', 'b', 'c'] → (updatePosition updNlState 0 false).position.col = trailingRun ['a', '\n', 'b', 'c'])
    ∧ (newlineCount ['a', '\n', 'b', 'c'] = 0 → (updatePosition updNlState 0 false).position.col = updNlState.position.col + (['a', '\n', 'b', 'c'] : List Char).length) :=
  claim2_position_advance updNlState 0
    { type := .RawText, start := { line := 0, char := 0, col := 5 },
      raw := some ['a', '\n', 'b', 'c'] }
    ['a', '\n', 'b', 'c'] false rfl rfl rfl

lemma lookup_filter_not_key {α β : Type} [DecidableEq α] (l : List (α × β)) (k : α) :
    (l.filter (fun e => ¬ (e.1 = k))).lookup k = none := by
  induction l with
  | nil => rfl
  | cons e t ih =>
    by_cases he : e.1 = k
    · simpa [List.filter_cons, he] using ih
    · have hke : (k == e.1) = false := by
        simp only [beq_eq_false_iff_ne, ne_eq]
        exact fun hh => he hh.symm
      simpa [List.filter_cons, he, List.lookup, hke] using ih

lemma findFirstIdx_none_not_mem (p : Generator) :
    ∀ l : List Generator, findFirstIdx (fun q => q = p) l = none → p ∉ l := by
  intro l
  induction l with
  | nil => simp
  | cons a t ih =>
    intro h hm
    by_cases ha : a = p
    · simp [findFirstIdx, ha] at h
    · simp only [findFirstIdx, ha, decide_eq_true_eq, if_false, Option.map_eq_none'] at h
      rcases List.mem_cons.mp hm with rfl | hm'
      · exact ha rfl
      · exact ih h hm'

lemma eraseFound_not_mem (p : Generator) :
    ∀ l : List Generator, l.count p ≤ 1 →
      p ∉ (match findFirstIdx (fun q => q = p) l with
           | some i => l.eraseIdx i
           | none => l) := by
  intro l
  induction l with
  | nil =>
    intro _ hmem
    simp [findFirstIdx] at hmem
  | cons a t ih =>
    intro hc
    by_cases ha : a = p
    · subst ha
      have hz : t.count a = 0 := by
        have hcc : (a :: t).count a = t.count a + 1 := List.count_cons_self a t
        omega
      have hfi : findFirstIdx (fun q => q = a) (a :: t) = some 0 := by
        simp [findFirstIdx]
      rw [hfi]
      intro hm
      have hpos : 0 < t.count a := List.count_pos_iff.mpr (by simpa [List.eraseIdx] using hm)
      omega
    · have hfi : findFirstIdx (fun q => q = p) (a :: t) =
          (findFirstIdx (fun q => q = p) t).map (· + 1) := by
        simp [findFirstIdx, ha]
      rw [hfi]
      have hc' : t.count p ≤ 1 := by
        have hcc : (a :: t).count p = t.count p := List.count_cons_of_ne (fun hh => ha hh.symm) t
        omega
      cases hf : findFirstIdx (fun q => q = p) t with
      | none =>
        simp only [Option.map_none']
        intro hm
        rcases List.mem_cons.mp hm with rfl | hm'
        · exact ha rfl
        · exact findFirstIdx_none_not_mem p t hf hm'
      | some i =>
        simp only [Option.map_some']
        intro hm
        have hmm := ih hc'
        rw [hf] at hmm
        rcases List.mem_cons.mp (by simpa [List.eraseIdx] using hm) with rfl | hm'
        · exact ha rfl
        · exact hmm hm'

/-- Claim C8.  `removeProvider` on a registered recognizer returns true
and removes it from the by-name, by-id and sorted indices; calling it
again on the already-removed recognizer returns false and leaves every
index (the whole builder state) unchanged. -/
theorem claim8_removeProvider (st : AstBuilder) (p : Generator)
    (hreg : (st.tokenProvidersById.lookup p.id).isSome = true)
    (hcount : st.tokenProvidersSorted.count p ≤ 1) :
    (removeProvider st p).2 = true
    ∧ ((removeProvider st p).1.tokenProviders.lookup p.name) = none
    ∧ ((removeProvider st p).1.tokenProvidersById.lookup p.id) = none
    ∧ p ∉ (removeProvider st p).1.tokenProvidersSorted
    ∧ (removeProvider (removeProvider st p).1 p).2 = false
    ∧ (removeProvider (removeProvider st p).1 p).1 = (removeProvider st p).1 := by
  have hstep :
      removeProvider st p =
        ({ st with
            tokenProviders := st.tokenProviders.filter (fun e => ¬ (e.1 = p.name))
            tokenProvidersById := st.tokenProvidersById.filter (fun e => ¬ (e.1 = p.id))
            tokenProvidersSorted :=
              match findFirstIdx (fun q => q = p) st.tokenProvidersSorted with
              | some i => st.tokenProvidersSorted.eraseIdx i
              | none => st.tokenProvidersSorted }, true) := by
    unfold removeProvider
    rw [if_pos hreg]
  have hbyId : ((removeProvider st p).1.tokenProvidersById.lookup p.id) = none := by
    rw [hstep]
    exact lookup_filter_not_key st.tokenProvidersById p.id
  have hnf : ∀ st' : AstBuilder, (st'.tokenProvidersById.lookup p.id) = none →
      removeProvider st' p = (st', false) := by
    intro st' h
    unfold removeProvider
    rw [if_neg (by simp [h])]
  have hsnd : removeProvider (removeProvider st p).1 p = ((removeProvider st p).1, false) :=
    hnf _ hbyId
  refine ⟨by rw [hstep], ?_, hbyId, ?_, by rw [hsnd], by rw [hsnd]⟩
  · rw [hstep]
    exact lookup_filter_not_key st.tokenProviders p.name
  · rw [hstep]
    exact eraseFound_not_mem p st.tokenProvidersSorted hcount

/-- Claim C8, witness: removing the registered Semicolon recognizer
succeeds once and the second removal is a rejected no-op. -/
theorem claim8_witness :
    ((remState.tokenProvidersById.lookup semiGen.id).isSome = true
      ∧ remState.tokenProvidersSorted.count semiGen ≤ 1)
    ∧ ((removeProvider remState semiGen).2 = true
      ∧ ((removeProvider remState semiGen).1.tokenProviders.lookup semiGen.name) = none
      ∧ ((removeProvider remState semiGen).1.tokenProvidersById.lookup semiGen.id) = none
      ∧ semiGen ∉ (removeProvider remState semiGen).1.tokenProvidersSorted
      ∧ (removeProvider (removeProvider remState semiGen).1 semiGen).2 = false
      ∧ (removeProvider (removeProvider remState semiGen).1 semiGen).1 = (removeProvider remState semiGen).1) :=
  ⟨⟨by decide, by decide⟩,
    claim8_removeProvider remState semiGen (by decide) (by decide)⟩

/-- Claim C10.  `pushContext` pushes the spread-merge of the previous
top frame with the new data: the stack grows by exactly one, the merged
frame becomes both the new stack top and the current context, and every
field of the merged frame is the previous frame's value unless the new
data names that field, in which case the new value wins. -/
theorem claim10_pushContext (st : AstBuilder) (f : ContextFrame) (rest : List ContextFrame)
    (nc : ContextFrame) (h : st.contextStack = f :: rest) :
    (pushContext st nc).contextStack = mergeFrame f nc :: st.contextStack
    ∧ (pushContext st nc).contextStack.length = st.contextStack.length + 1
    ∧ (pushContext st nc).context = some (mergeFrame f nc)
    ∧ (nc.scope = none → (mergeFrame f nc).scope = f.scope)
    ∧ (∀ v, nc.scope = some v → (mergeFrame f nc).scope = some v)
    ∧ (nc.thisClass = none → (mergeFrame f nc).thisClass = f.thisClass)
    ∧ (∀ v, nc.thisClass = some v → (mergeFrame f nc).thisClass = some v)
    ∧ (nc.thisFunction = none → (mergeFrame f nc).thisFunction = f.thisFunction)
    ∧ (∀ v, nc.thisFunction = some v → (mergeFrame f nc).thisFunction = some v)
    ∧ (nc.thisMember = none → (mergeFrame f nc).thisMember = f.thisMember)
    ∧ (∀ v, nc.thisMember = some v → (mergeFrame f nc).thisMember = some v)
    ∧ (nc.vars = none → (mergeFrame f nc).vars = f.vars)
    ∧ (∀ v, nc.vars = some v → (mergeFrame f nc).vars = some v) := by
  refine ⟨?_, ?_, ?_, ?_, ?_, ?_, ?_, ?_, ?_, ?_, ?_, ?_, ?_⟩
  · simp [pushContext, h]
  · simp [pushContext, h]
  · simp [pushContext, h]
  all_goals first
    | (intro hx; simp [mergeFrame, jsOr, hx])
    | (intro v hx; simp [mergeFrame, jsOr, hx])

/-- Claim C10, witness: pushing the Class patch onto the initial frame
inherits the unnamed fields and overrides `scope` and `thisClass`. -/
theorem claim10_witness :
    pushState.contextStack = jsInitFrame :: []
    ∧ ((pushContext pushState classPatch).contextStack
        = mergeFrame jsInitFrame classPatch :: pushState.contextStack
      ∧ (pushContext pushState classPatch).contextStack.length = pushState.contextStack.length + 1
      ∧ (pushContext pushState classPatch).context = some (mergeFrame jsInitFrame classPatch)
      ∧ (classPatch.scope = none → (mergeFrame jsInitFrame classPatch).scope = jsInitFrame.scope)
      ∧ (∀ v, classPatch.scope = some v → (mergeFrame jsInitFrame classPatch).scope = some v)
      ∧ (classPatch.thisClass = none → (mergeFrame jsInitFrame classPatch).thisClass = jsInitFrame.thisClass)
      ∧ (∀ v, classPatch.thisClass = some v → (mergeFrame jsInitFrame classPatch).thisClass = some v)
      ∧ (classPatch.thisFunction = none → (mergeFrame jsInitFrame classPatch).thisFunction = jsInitFrame.thisFunction)
      ∧ (∀ v, classPatch.thisFunction = some v → (mergeFrame jsInitFrame classPatch).thisFunction = some v)
      ∧ (classPatch.thisMember = none → (mergeFrame jsInitFrame classPatch).thisMember = jsInitFrame.thisMember)
      ∧ (∀ v, classPatch.thisMember = some v → (mergeFrame jsInitFrame classPatch).thisMember = some v)
      ∧ (classPatch.vars = none → (mergeFrame jsInitFrame classPatch).vars = jsInitFrame.vars)
      ∧ (∀ v, classPatch.vars = some v → (mergeFrame jsInitFrame classPatch).vars = some v)) :=
  ⟨rfl, claim10_pushContext pushState jsInitFrame [] classPatch rfl⟩

lemma noMatchTail_ne_ok (st : AstBuilder) (x : AstBuilder × NextTokenResult) :
    noMatchTail st ≠ Except.ok x := by
  unfold noMatchTail
  split
  · simp
  · split <;> simp

lemma nextTokenLoop_not_ws :
    ∀ (pipeline : List (Option Generator)) (st st2 : AstBuilder) (ti : Nat) (next : List Nat),
      nextTokenLoop st pipeline = .done (.ok (st2, .token ti next)) →
      tokenTypeAt st2 ti ≠ some TokenType.Whitespace := by
  intro pipeline
  induction pipeline with
  | nil =>
    intro st st2 ti next h
    simp only [nextTokenLoop] at h
    injection h with h'
    exact absurd h' (noMatchTail_ne_ok st _)
  | cons g? rest ih =>
    intro st st2 ti next h
    simp only [nextTokenLoop] at h
    split at h
    · injection h with h'
      exact Except.noConfusion h'
    · split at h
      · injection h with h'
        exact Except.noConfusion h'
      · exact ih st st2 ti next h
      · split at h
        · injection h with h'
          exact Except.noConfusion h'
        · split at h
          · injection h with h'
            exact Except.noConfusion h'
          · split at h
            · injection h with h'
              exact Except.noConfusion h'
            · split at h
              · exact LoopOut.noConfusion h
              · simp_all

/-- Claim C3, amended.  A `nextToken` call never returns a Whitespace
token: whenever the call succeeds with an emitted token, that token's
type is not Whitespace (the read was transparently retried with the
same expected types after any whitespace match).  Whitespace tokens
still advance the position like any other token, but they are *not*
excluded from the token tree: like every closed token they are appended
to the children of the innermost open token when one exists. -/
theorem claim3_no_whitespace_returned :
    ∀ (fuel : Nat) (isJS : Bool) (st : AstBuilder) (expect : List Nat)
      (st2 : AstBuilder) (ti : Nat) (next : List Nat),
      nextTokenGo fuel isJS st expect = .ok (st2, .token ti next) →
      tokenTypeAt st2 ti ≠ some TokenType.Whitespace := by
  intro fuel
  induction fuel with
  | zero =>
    intro isJS st expect st2 ti next h
    exact Except.noConfusion h
  | succ n ih =>
    intro isJS st expect st2 ti next h
    have main : ∀ P : List (Option Generator),
        (if P.isEmpty then
            (Except.error (JsErr.jsError "empty pipeline") :
              Except JsErr (AstBuilder × NextTokenResult))
          else
            match nextTokenLoop st P with
            | .done r => r
            | .retry stR => nextTokenGo n isJS stR expect) = .ok (st2, .token ti next) →
        tokenTypeAt st2 ti ≠ some TokenType.Whitespace := by
      intro P hP
      split at hP
      · exact Except.noConfusion hP
      · cases hL : nextTokenLoop st P with
        | done r =>
          simp only [hL] at hP
          exact nextTokenLoop_not_ws P st st2 ti next (by rw [hL, hP])
        | retry stR =>
          simp only [hL] at hP
          exact ih isJS stR expect st2 ti next hP
    cases isJS
    · exact main (preparePipeline st expect) (by simpa [nextTokenGo] using h)
    · exact main (preparePipelineJS st expect) (by simpa [nextTokenGo] using h)

/-- Claim C3, witness for the amended theorem: the run on `" ;"`
returns token 2, a Semicolon, never the consumed Whitespace token. -/
theorem claim3_witness : tokenTypeAt wsRunResult 2 ≠ some TokenType.Whitespace :=
  claim3_no_whitespace_returned 3 false wsRunState [] wsRunResult 2 [] rfl

/-- Claim C3, counterexample to "whitespace tokens are excluded from
the returned token tree".  Tokenizing `" ;"` with an open root token:
the call returns the Semicolon token (index 2) after transparently
consuming the whitespace, the position advances over both characters,
but the Whitespace token (index 1) has been appended to the open root
token's children — it is part of the returned tree. -/
theorem claim3_counterexample :
    nextTokenGo 3 false wsRunState [] = .ok (wsRunResult, .token 2 [])
    ∧ tokenTypeAt wsRunResult 1 = some TokenType.Whitespace
    ∧ (tokenAt wsRunResult 0).map Token.children = some (some [1, 2])
    ∧ wsRunResult.position.char = 2 :=
  ⟨rfl, rfl, rfl, rfl⟩

/-- Claim C9, counterexample.  On a fresh JS builder the Global
recognizer matches successfully with zero width: `nextToken` returns
its token normally (no fatal "stuck" abort is raised anywhere in the
code) while the byte offset does not increase. -/
theorem claim9_counterexample :
    nextTokenGo 2 false globalRunState [] = .ok (globalRunResult, .token 0 [])
    ∧ globalRunResult.position.char = globalRunState.position.char :=
  ⟨rfl, rfl⟩

/-- Claim C9, amended.  A successful match need not advance the
position and no stuck detection exists: the Global recognizer's
zero-width match (`raw = ""`) returns a token with the byte offset
unchanged and the run continues normally; re-firing is prevented only
by the recognizer removing itself from every provider index. -/
theorem claim9_zero_width_continues :
    nextTokenGo 2 false globalRunState [] = .ok (globalRunResult, .token 0 [])
    ∧ globalRunResult.position.char = 0
    ∧ tokenTypeAt globalRunResult 0 = some TokenType.Global
    ∧ (tokenAt globalRunResult 0).map Token.raw = some (some [])
    ∧ globalRunResult.tokenProvidersSorted = []
    ∧ globalRunResult.tokenProvidersById.lookup 13 = none
    ∧ globalRunResult.tokenProviders.lookup "Global" = none :=
  ⟨rfl, rfl, rfl, rfl, rfl, rfl, rfl⟩

/-- Claim C1.  With a non-empty pipeline in which no recognizer
matches, `nextToken` raises a ReferenceError in *both* terminal
branches: the log template interpolates `loader.name`, but `loader` is
an undeclared identifier in `AstBuilder.js` (the field in scope is
`this.loader`), so neither the end-of-stream sentinel nor the reported
failure value is ever returned. -/
theorem claim1_code_bug :
    preparePipeline noMatchState [] ≠ []
    ∧ isEOF noMatchState = false
    ∧ nextTokenGo 2 false noMatchState [] = .error .referenceError
    ∧ preparePipeline noMatchEofState [] ≠ []
    ∧ isEOF noMatchEofState = true
    ∧ nextTokenGo 2 false noMatchEofState [] = .error .referenceError :=
  ⟨by decide, rfl, rfl, by decide, rfl, rfl⟩

/-- Claim C7.  On the unterminated block comment `"/* never closes"`
the CommentBlock recognizer's `getToken` computes
`remainder.indexOf('*/') = -1` and slices `remainder.slice(0, -1 + 2)`,
producing a CommentBlock token whose raw text is just `"/"`: the call
returns this token built from the invalid slice instead of a
ParseFailure referencing the comment's start. -/
theorem claim7_code_bug :
    jsIndexOfSub commentState.remainder ['*', '/'] = -1
    ∧ nextTokenGo 2 false commentState [] = .ok (commentResult, .token 0 [])
    ∧ tokenTypeAt commentResult 0 = some TokenType.CommentBlock
    ∧ (tokenAt commentResult 0).map Token.raw = some (some ['/'])
    ∧ commentResult.position.char = 1 :=
  ⟨rfl, rfl, rfl, rfl, rfl⟩

/-- Claim C5.  `NumberGenerator.test` returns `false` as soon as the
first (decimal) tester fails to match (`if (match === null) return
false;`), so the failure of an earlier pattern *does* prevent later
patterns from being tried: on `"0x10"` the decimal pattern fails and
the whole test reports no match even though the hexadecimal pattern
alone matches the input.  Only a decimal match can ever produce a
result. -/
theorem claim5_code_bug :
    decimalMatch ['0', 'x', '1', '0'] = none
    ∧ hexMatch ['0', 'x', '1', '0'] = some ['0', 'x', '1', '0']
    ∧ numberTest ['0', 'x', '1', '0'] = .ok none
    ∧ numberTest ['1', '2', '3'] = .ok (some (['1', '2', '3'], "decimal")) :=
  ⟨rfl, rfl, rfl, rfl⟩

/-- Claim C6.  `AstBuilderJS.preparePipeline` checks
`pipeline.findIndex(p => whitespaceProvider)`, whose predicate ignores
`p`, so the index is 0 for every non-empty pipeline whenever the
whitespace provider exists: a filtered pipeline that lacks the
whitespace recognizer does *not* get it appended (contradicting the
`// Always allow for whitespace` comment).  The unfiltered call still
returns the full weight-sorted list, and the filtered call the
requested recognizers in caller order. -/
theorem claim6_code_bug :
    preparePipelineJS pipeState [14] = [some identGen]
    ∧ (some wsGen) ∉ preparePipelineJS pipeState [14]
    ∧ preparePipelineJS pipeState [] = [some wsGen, some identGen] :=
  ⟨rfl, by decide, rfl⟩


lemma providerLE_iff (a b : Generator) : providerLE a b ↔ weightNameOrder a b := by
  unfold providerLE providerCmp localeCompare weightNameOrder
  split_ifs with h1 h2 h3 h4
  · exact iff_of_true (by decide) (Or.inl h1)
  · refine iff_of_false (by decide) ?_
    rintro (hlt | ⟨heq, _⟩)
    · exact h1 hlt
    · omega
  · exact iff_of_true (by decide) (Or.inr ⟨by omega, le_of_lt h3⟩)
  · refine iff_of_false (by decide) ?_
    rintro (hlt | ⟨_, hle⟩)
    · exact h1 hlt
    · exact absurd hle (not_le.mpr h4)
  · have hne : a.name = b.name := le_antisymm (le_of_not_lt h4) (le_of_not_lt h3)
    exact iff_of_true (by decide) (Or.inr ⟨by omega, le_of_eq hne⟩)

lemma providerLT_iff (a b : Generator) : providerLT a b ↔ weightNameLT a b := by
  unfold providerLT providerCmp localeCompare weightNameLT
  split_ifs with h1 h2 h3 h4
  · exact iff_of_true (by decide) (Or.inl h1)
  · refine iff_of_false (by decide) ?_
    rintro (hlt | ⟨heq, _⟩)
    · exact h1 hlt
    · omega
  · exact iff_of_true (by decide) (Or.inr ⟨by omega, h3⟩)
  · refine iff_of_false (by decide) ?_
    rintro (hlt | ⟨_, hlt'⟩)
    · exact h1 hlt
    · exact h3 hlt'
  · refine iff_of_false (by decide) ?_
    rintro (hlt | ⟨_, hlt'⟩)
    · exact h1 hlt
    · exact h3 hlt'

instance : IsTotal Generator providerLE :=
  ⟨by
    intro a b
    rw [providerLE_iff, providerLE_iff]
    unfold weightNameOrder
    rcases Nat.lt_trichotomy a.weight b.weight with h | h | h
    · exact Or.inr (Or.inl h)
    · rcases le_total a.name b.name with hn | hn
      · exact Or.inl (Or.inr ⟨h, hn⟩)
      · exact Or.inr (Or.inr ⟨h.symm, hn⟩)
    · exact Or.inl (Or.inl h)⟩

instance : IsTrans Generator providerLE :=
  ⟨by
    intro a b c hab hbc
    rw [providerLE_iff] at hab hbc ⊢
    unfold weightNameOrder at hab hbc ⊢
    rcases hab with h1 | ⟨h1, h1'⟩ <;> rcases hbc with h2 | ⟨h2, h2'⟩
    · exact Or.inl (by omega)
    · exact Or.inl (by omega)
    · exact Or.inl (by omega)
    · exact Or.inr ⟨by omega, le_trans h1' h2'⟩⟩

/-- Claim C4.  Registration sorts recognizers by weight descending with
ties broken by name ascending (the sorted index is a permutation of the
registered list ordered that way); the comparator's strict order is
irreflexive, transitive and — on recognizers with pairwise-distinct
names — total and asymmetric, hence a strict total order; and a
literal-string condition weighs `100 + length`, so longer literals
outrank shorter ones. -/
theorem claim4_weight_order (l : List Generator)
    (hn : (l.map Generator.name).Nodup) :
    List.Perm (sortProviders l) l
    ∧ List.Sorted weightNameOrder (sortProviders l)
    ∧ (∀ a : Generator, ¬ providerLT a a)
    ∧ (∀ a b c : Generator, providerLT a b → providerLT b c → providerLT a c)
    ∧ (∀ a ∈ l, ∀ b ∈ l, a ≠ b →
        (providerLT a b ∨ providerLT b a) ∧ ¬ (providerLT a b ∧ providerLT b a))
    ∧ (∀ s : List Char, calculateWeight (Condition.str s) = 100 + s.length)
    ∧ (∀ s t : List Char, t.length < s.length →
        calculateWeight (Condition.str t) < calculateWeight (Condition.str s)) := by
  refine ⟨List.perm_insertionSort providerLE l, ?_, ?_, ?_, ?_, fun s => rfl, ?_⟩
  · have hs := List.sorted_insertionSort providerLE l
    exact List.Pairwise.imp (fun hab => (providerLE_iff _ _).mp hab) hs
  · intro a
    rw [providerLT_iff]
    unfold weightNameLT
    rintro (h | ⟨_, h⟩)
    · omega
    · exact absurd h (lt_irrefl _)
  · intro a b c hab hbc
    rw [providerLT_iff] at hab hbc ⊢
    unfold weightNameLT at hab hbc ⊢
    rcases hab with h1 | ⟨h1, h1'⟩ <;> rcases hbc with h2 | ⟨h2, h2'⟩
    · exact Or.inl (by omega)
    · exact Or.inl (by omega)
    · exact Or.inl (by omega)
    · exact Or.inr ⟨by omega, lt_trans h1' h2'⟩
  · intro a ha b hb hne
    have hname : a.name ≠ b.name := fun hh => hne (List.inj_on_of_nodup_map hn ha hb hh)
    constructor
    · rw [providerLT_iff, providerLT_iff]
      unfold weightNameLT
      rcases Nat.lt_trichotomy a.weight b.weight with h | h | h
      · exact Or.inr (Or.inl h)
      · rcases lt_or_gt_of_ne hname with hn1 | hn1
        · exact Or.inl (Or.inr ⟨h, hn1⟩)
        · exact Or.inr (Or.inr ⟨h.symm, hn1⟩)
      · exact Or.inl (Or.inl h)
    · rw [providerLT_iff, providerLT_iff]
      unfold weightNameLT
      rintro ⟨ha1 | ⟨ha1, ha2⟩, hb1 | ⟨hb1, hb2⟩⟩
      · omega
      · omega
      · omega
      · exact absurd (lt_trans ha2 hb2) (lt_irrefl _)
  · intro s t h
    simp only [calculateWeight]
    omega

/-- Claim C4, witness: the sample registration list has distinct names
and its sorted index is Global, Whitespace, Identifier, CommentBlock,
Semicolon — weight descending, the two literal recognizers ordered by
their literals' lengths. -/
theorem claim4_witness :
    (weightDemoList.map Generator.name).Nodup
    ∧ (List.Perm (sortProviders weightDemoList) weightDemoList
      ∧ List.Sorted weightNameOrder (sortProviders weightDemoList)
      ∧ (∀ a : Generator, ¬ providerLT a a)
      ∧ (∀ a b c : Generator, providerLT a b → providerLT b c → providerLT a c)
      ∧ (∀ a ∈ weightDemoList, ∀ b ∈ weightDemoList, a ≠ b →
          (providerLT a b ∨ providerLT b a) ∧ ¬ (providerLT a b ∧ providerLT b a))
      ∧ (∀ s : List Char, calculateWeight (Condition.str s) = 100 + s.length)
      ∧ (∀ s t : List Char, t.length < s.length →
          calculateWeight (Condition.str t) < calculateWeight (Condition.str s))) :=
  ⟨by decide, claim4_weight_order weightDemoList (by decide)⟩


end Klf
